import Mathlib

attribute [local semireducible] Rat.add Rat.mul Rat.sub Rat.inv

/-!
Shallow embedding of `src/rpn.js` (spica-git/ReversePolishNotation).

The source is a single JavaScript file exposing
- `rpn`          : postfix (reverse-Polish) string evaluator,
- `rpn.Generate` : shunting-yard conversion of an in-place-notation
                   expression string into a postfix string,
- `rpn.SetOperate`: runtime registration of extra operator functions,
all reading one mutable operator table `OperateTable`.

Modelling conventions:
- The mutable global `OperateTable` becomes an explicit `Registry`
  parameter (a key/spec association list preserving JS object
  property-insertion order, which is the order `for ... in` visits keys
  for the non-integer-like string keys used here).
- JS numbers (IEEE-754 binary64) are modelled by `Rat` (exact
  arithmetic).  Every operation exercised by a theorem below is exact
  in binary64 as well, so the model and JS agree there.  Places where
  binary64/NaN/Infinity semantics fall outside the exact model
  (division by zero, `Math.pow` with a non-integer exponent, string
  coercion producing NaN, exponent-notation literals) are marked at
  the relevant definitions; no theorem depends on them.
- `throw` and `return null` become `Except` error results.
-/

namespace RPNJS

/-! ## JS numeric primitives (ToInt32/ToUint32, bitwise, pow, mod) -/

/-- Truncation toward zero, the rounding used by JS `ToInt32`/`ToUint32`
and by the remainder operator (for a reduced fraction this is exactly
numerator-over-denominator division rounding toward zero). -/
def jsTrunc (q : ℚ) : ℤ :=
  Int.tdiv q.num (q.den : ℤ)

/-- Wrap an integer into the unsigned 32-bit range, as `ToUint32`. -/
def wrap32 (i : ℤ) : ℕ := (i % (2 ^ 32 : ℤ)).toNat

/-- Reinterpret an unsigned 32-bit value as signed (two's complement). -/
def signed32 (n : ℕ) : ℤ := if n < 2 ^ 31 then (n : ℤ) else (n : ℤ) - 2 ^ 32

/-- The unsigned 32-bit pattern of a JS number (`ToUint32`). -/
def u32 (q : ℚ) : ℕ := wrap32 (jsTrunc q)

/-- JS `ToInt32` of a number. -/
def toInt32 (q : ℚ) : ℤ := signed32 (u32 q)

/-- JS `a & b` (32-bit signed bitwise and). -/
def jsAnd (a b : ℚ) : ℚ := (signed32 (Nat.land (u32 a) (u32 b)) : ℚ)

/-- JS `a | b`. -/
def jsOr (a b : ℚ) : ℚ := (signed32 (Nat.lor (u32 a) (u32 b)) : ℚ)

/-- JS `a ^ b` (bitwise xor). -/
def jsXor (a b : ℚ) : ℚ := (signed32 (Nat.xor (u32 a) (u32 b)) : ℚ)

/-- JS `~a` = `-(ToInt32(a)) - 1`. -/
def jsNot (a : ℚ) : ℚ := (-(toInt32 a) - 1 : ℤ)

/-- JS `a << b`: shift the 32-bit pattern left by `ToUint32(b) mod 32`. -/
def jsShl (a b : ℚ) : ℚ :=
  (signed32 ((Nat.shiftLeft (u32 a) (u32 b % 32)) % 2 ^ 32) : ℚ)

/-- JS `a >> b`: arithmetic (sign-propagating) right shift, i.e. floor
division of the signed 32-bit value by `2 ^ (ToUint32(b) mod 32)`. -/
def jsShr (a b : ℚ) : ℚ :=
  (Int.fdiv (toInt32 a) (2 ^ (u32 b % 32)) : ℚ)

/-- JS `a ** b`, exact for integer exponents.  A non-integer exponent
(`Math.pow` on floats) is outside the exact model and is mapped to `0`;
no theorem below evaluates it. -/
def jsPow (a b : ℚ) : ℚ :=
  if b.den = 1 then
    (if 0 ≤ b.num then a ^ b.num.toNat else (a ^ (-b.num).toNat)⁻¹)
  else 0

/-- JS `a % b` = `a - b * trunc(a / b)` (remainder with the sign of the
dividend).  `b = 0` gives NaN in JS, outside the exact model (here it
yields `a`); no theorem evaluates it. -/
def jsMod (a b : ℚ) : ℚ := a - b * (jsTrunc (a / b) : ℚ)

/-! ## Operator registry

`OperateTable` in the source maps a token to
`{Order, Type, Arity, AssocLow, fn}`.  `Type` is a reserved word in
Lean, so the field is called `Ty`; its values are the source's strings
`"state"`, `"op"`, `"fn"` (plus `"num"`/`"str"` for postfix tokens). -/

/-- An entry of `OperateTable`. -/
structure OpSpec where
  Order : ℕ
  Ty : String
  Arity : ℕ
  AssocLow : String
  fn : List ℚ → Option ℚ

/-- The operator table: key/spec pairs in JS property-insertion order
(`for ... in` visits the non-integer-like string keys used here in
exactly this order). -/
abbrev Registry : Type := List (String × OpSpec)

/-- `OperateTable[key]` (`null`/`undefined` becomes `none`).  An in-line
replacement by `SetOperate` keeps the original position, matching JS
property update. -/
def lookupOp (reg : Registry) (k : String) : Option OpSpec :=
  (reg.find? (fun p => p.1 == k)).map Prod.snd

/-- `OperateTable[k].Order`; a missing key would be a JS `TypeError`,
modelled as `0` (unreachable from `Generate`, which only consults keys
it has matched from the registry). -/
def ordOf (reg : Registry) (k : String) : ℕ :=
  match lookupOp reg k with
  | some s => s.Order
  | none => 0

/-- `OperateTable[k].AssocLow`, with `""` for a missing key. -/
def assocOf (reg : Registry) (k : String) : String :=
  match lookupOp reg k with
  | some s => s.AssocLow
  | none => ""

/-- The built-in `OperateTable` of the source, in declaration order.
The bracket entries' `fn` is `function(){}`, which returns `undefined`
(`none`).  Each implementation is the JS arrow body; the `_ => none`
fallback for a wrong argument count is unreachable because the
evaluator always passes exactly `Arity` arguments. -/
def OperateTable : Registry := [
  ("(", ⟨20, "state", 0, "", fun _ => none⟩),
  (")", ⟨20, "state", 0, "", fun _ => none⟩),
  ("#", ⟨16, "op", 1, "R", fun args => match args with | [a] => some a | _ => none⟩),
  ("_", ⟨16, "op", 1, "R", fun args => match args with | [a] => some (-a) | _ => none⟩),
  ("~", ⟨16, "op", 1, "R", fun args => match args with | [a] => some (jsNot a) | _ => none⟩),
  ("**", ⟨15, "op", 2, "R", fun args => match args with | [a, b] => some (jsPow a b) | _ => none⟩),
  ("*", ⟨14, "op", 2, "L", fun args => match args with | [a, b] => some (a * b) | _ => none⟩),
  ("/", ⟨14, "op", 2, "L", fun args => match args with | [a, b] => some (a / b) | _ => none⟩),
  ("%", ⟨14, "op", 2, "L", fun args => match args with | [a, b] => some (jsMod a b) | _ => none⟩),
  ("+", ⟨13, "op", 2, "L", fun args => match args with | [a, b] => some (a + b) | _ => none⟩),
  ("-", ⟨13, "op", 2, "L", fun args => match args with | [a, b] => some (a - b) | _ => none⟩),
  ("<<", ⟨12, "op", 2, "L", fun args => match args with | [a, b] => some (jsShl a b) | _ => none⟩),
  (">>", ⟨12, "op", 2, "L", fun args => match args with | [a, b] => some (jsShr a b) | _ => none⟩),
  ("&", ⟨9, "op", 2, "L", fun args => match args with | [a, b] => some (jsAnd a b) | _ => none⟩),
  ("^", ⟨8, "op", 2, "L", fun args => match args with | [a, b] => some (jsXor a b) | _ => none⟩),
  ("|", ⟨7, "op", 2, "L", fun args => match args with | [a, b] => some (jsOr a b) | _ => none⟩)]

/-- Insert-or-replace for the registry.  Assigning to an existing JS
object key keeps its position in property order; a new key is appended.
(JS would order integer-like keys such as `"2"` first; no such operator
name occurs in any theorem below.) -/
def insertOp : Registry → String → OpSpec → Registry
  | [], k, s => [(k, s)]
  | (k', s') :: rest, k, s =>
      if k' = k then (k, s) :: rest else (k', s') :: insertOp rest k s

/-- `rpn.SetOperate(_name, _arity, _fn)`: the argument guard rejects a
falsy (empty) name with only a console warning and no installation; the
non-string/non-number/non-function cases of the guard are ruled out by
the Lean types.  On success installs
`{Order:18, Type:"fn", Arity:_arity, AssocLow:"L", fn:_fn}`.  The JS
method returns the engine object whose table is the mutated registry;
in this pure model that is the returned registry, which subsequent
`Generate`/`rpn` calls take as their parameter, so chained registration
is function composition. -/
def SetOperate (reg : Registry) (_name : String) (_arity : ℕ)
    (_fn : List ℚ → Option ℚ) : Registry :=
  if _name = "" then reg
  else insertOp reg _name ⟨18, "fn", _arity, "L", _fn⟩

/-! ## Number literals of the in-place-notation scanner

`Generate` matches `/(^0x[0-9a-f]+)|(^[0-9]+(\.[0-9]+)?)/i` and then
parses with `parseInt(g[0], 16)` when `g[0].indexOf("0x") === 0`
(a case-sensitive test, unlike the `i`-flagged regex) and with
`parseFloat(g[0])` otherwise. -/

/-- Hexadecimal digit, case-insensitive (regex class `[0-9a-f]` under
the `i` flag; also the digits accepted by `parseInt(_, 16)`). -/
def isHexDig (c : Char) : Bool :=
  c.isDigit || ('a' ≤ c && c ≤ 'f') || ('A' ≤ c && c ≤ 'F')

/-- Value of a string of decimal digits. -/
def decVal (ds : List Char) : ℕ :=
  ds.foldl (fun a c => a * 10 + (c.toNat - '0'.toNat)) 0

/-- Value of a string of hexadecimal digits. -/
def hexVal (ds : List Char) : ℕ :=
  ds.foldl (fun a c =>
    a * 16 + (if c.isDigit then c.toNat - '0'.toNat
              else if 'a' ≤ c then c.toNat - 'a'.toNat + 10
              else c.toNat - 'A'.toNat + 10)) 0

/-- The decimal alternative `^[0-9]+(\.[0-9]+)?` of the number regex:
returns the matched span and the rest.  The fraction part is included
only when at least one digit follows the dot. -/
def matchDec (e : List Char) : Option (List Char × List Char) :=
  let ds := e.takeWhile Char.isDigit
  if ds = [] then none
  else
    let r := e.dropWhile Char.isDigit
    match r with
    | '.' :: r2 =>
        let fs := r2.takeWhile Char.isDigit
        if fs = [] then some (ds, r)
        else some (ds ++ '.' :: fs, r2.dropWhile Char.isDigit)
    | _ => some (ds, r)

/-- The full number regex: hexadecimal alternative first (`0x`/`0X`
prefix, case-insensitive, then at least one hex digit), else the
decimal alternative. -/
def matchNumber : List Char → Option (List Char × List Char)
  | '0' :: x :: rest =>
      if (x = 'x' ∨ x = 'X') ∧ rest.takeWhile isHexDig ≠ [] then
        some ('0' :: x :: rest.takeWhile isHexDig, rest.dropWhile isHexDig)
      else matchDec ('0' :: x :: rest)
  | e => matchDec e

/-- `parseFloat` restricted to the strings the scanner can hand it:
the longest `[0-9]+(\.[0-9]+)?` or `\.[0-9]+` prefix is converted; the
remainder (e.g. the `X0F` of `0X0F`) is ignored, exactly as
`parseFloat` stops at the first unusable character.  Sign, exponent
notation and `Infinity` never reach this point (the number regex and
the postfix operator split exclude them); a string with no usable
prefix would be NaN, modelled as `0` and likewise unreachable. -/
def parseFloatLit (tok : List Char) : ℚ :=
  let ds := tok.takeWhile Char.isDigit
  let r := tok.dropWhile Char.isDigit
  match r with
  | '.' :: r2 =>
      let fs := r2.takeWhile Char.isDigit
      (decVal ds : ℚ) + (if fs = [] then 0 else (decVal fs : ℚ) / (10 ^ fs.length))
  | _ => (decVal ds : ℚ)

/-- Numeric value of a matched literal: `parseInt(tok, 16)` when the
match starts with lowercase `"0x"` (the source tests
`g[0].indexOf("0x") === 0`, which is case-sensitive), else
`parseFloat(tok)`.  `parseInt(_, 16)` strips the `0x` prefix and reads
the hex digits. -/
def numValue (tok : List Char) : ℚ :=
  if tok.take 2 = ['0', 'x'] then (hexVal (tok.drop 2) : ℚ)
  else parseFloatLit tok

/-- Rendering of a number pushed into the `Polish` array when the array
is joined with `" "`.  JS integer-valued numbers print without a
fraction; a non-integral value (never produced in any theorem below)
prints as a decimal in JS, which the exact model does not reproduce. -/
def numToStr (q : ℚ) : String :=
  if q.den = 1 then toString q.num else toString q

/-! ## The in-place-notation scanner and converter (`rpn.Generate`) -/

/-- Whitespace characters of the regex class `\s` (the Unicode members
beyond ASCII are unexercised). -/
def isWS (c : Char) : Bool := c = ' ' || c = '\t' || c = '\n' || c = '\r'

/-- A character consumed by the leading `replace(/^(\s|,)+/, "")`. -/
def isSep (c : Char) : Bool := isWS c || c = ','

/-- The operator-extraction loop: the first key in registry order such
that `exp.indexOf(key) === 0`, i.e. the first registered token that is
a prefix of the remaining input. -/
def opMatch (reg : Registry) (e : List Char) : Option String :=
  (reg.find? (fun p => p.1.toList.isPrefixOf e)).map Prod.fst

/-- The sign-to-unary rewrite: with the unary-context flag set, a raw
`+` becomes the internal token `#` and a raw `-` becomes `_`. -/
def resolveUnary (unary : Bool) (k : String) : String :=
  if unary then (if k = "+" then "#" else if k = "-" then "_" else k) else k

/-- `ope_stack[depth]` read (`ope_stack[depth] || []` creates a missing
level as empty). -/
def getStk (stks : List (List String)) (d : ℕ) : List String :=
  stks.getD d []

/-- `ope_stack[depth] = v`, extending the array if needed. -/
def setStk (stks : List (List String)) (d : ℕ) (v : List String) :
    List (List String) :=
  (stks ++ List.replicate (d + 1 - stks.length) []).set d v

/-- The source's pop loop: shift the stack top into `Polish`, then
continue while the operator just shifted has `Order` at least the new
token's (so the first shifted operator of lower `Order` has already
been emitted when the loop stops).  Returns (emitted, remaining). -/
def popLoop (reg : Registry) (opOrd : ℕ) : List String → List String × List String
  | [] => ([], [])
  | o :: rest =>
      if opOrd ≤ ordOf reg o then
        let p := popLoop reg opOrd rest
        (o :: p.1, p.2)
      else ([o], rest)

/-- How many operators `popLoop` emits. -/
def popCount (reg : Registry) (opOrd : ℕ) : List String → ℕ
  | [] => 0
  | o :: rest => if opOrd ≤ ordOf reg o then popCount reg opOrd rest + 1 else 1

/-- The push condition of the converter's `default` branch: stack
empty, or the new token's `Order` strictly above the top's, or equal
`Order` and the new token right-associative. -/
def pushCondB (reg : Registry) (op : String) (stk : List String) : Bool :=
  match stk with
  | [] => true
  | top :: _ =>
      decide (ordOf reg top < ordOf reg op) ||
      (decide (ordOf reg op = ordOf reg top) && decide (assocOf reg op = "R"))

/-- The `default` branch of the converter's `switch` for one
(sign-resolved) non-bracket operator: either unshift it onto
`ope_stack[depth]`, or run the pop loop into `Polish` and then unshift
it.  Returns the new (`ope_stack[depth]`, `Polish`). -/
def genOpStep (reg : Registry) (op : String) (stk out : List String) :
    List String × List String :=
  if pushCondB reg op stk then (op :: stk, out)
  else
    let p := popLoop reg (ordOf reg op) stk
    (op :: p.2, out ++ p.1)

/-- Failures of `Generate`: the `illegal expression` throw (with the
ten-character preview), the `too much ')'` throw, and the
`too much '('` warn-and-return-null.  `noFuel` is the step bound of the
loop model running out; `exp.length + 1` steps always suffice for a
registry whose keys are nonempty (every iteration consumes a character)
and no theorem goes near it. -/
inductive GenErr
  | illegalExpression (preview : String)
  | tooMuchClose
  | tooMuchOpen
  | noFuel
deriving DecidableEq

/-- One iteration of `Generate`'s `do`-loop.  `ok none` is the `break`
on exhausted input; `ok (some _)` carries the next
(exp, depth, ope_stack, Polish, unary) state. -/
def genIter (reg : Registry) (e : List Char) (depth : ℕ)
    (stks : List (List String)) (polish : List String) (unary : Bool) :
    Except GenErr (Option (List Char × ℕ × List (List String) × List String × Bool)) :=
  let e := e.dropWhile isSep
  if e = [] then .ok none
  else
    match matchNumber e with
    | some (tok, rest) =>
        .ok (some (rest, depth, stks, polish ++ [numToStr (numValue tok)], false))
    | none =>
        match opMatch reg e with
        | none => .error (.illegalExpression (String.mk (e.take 10)))
        | some k =>
            let rest := e.drop k.length
            if k = "(" then .ok (some (rest, depth + 1, stks, polish, true))
            else if k = ")" then
              let polish2 := polish ++ getStk stks depth
              let stacks2 := setStk stks depth []
              if depth = 0 then .error .tooMuchClose
              else .ok (some (rest, depth - 1, stacks2, polish2, false))
            else
              let op := resolveUnary unary k
              let p := genOpStep reg op (getStk stks depth) polish
              .ok (some (rest, depth, setStk stks depth p.1, p.2, true))

/-- `Generate`'s loop, followed by the source's termination code: with
depth still positive the partial output is discarded (`too much '('`,
return null); otherwise `ope_stack[0]` is drained into `Polish`.  (The
source's `generate unfinished` branch is dead: the loop only exits with
the input empty.) -/
def genLoop (reg : Registry) : ℕ → List Char → ℕ → List (List String) →
    List String → Bool → Except GenErr (List String)
  | 0, _, _, _, _, _ => .error .noFuel
  | fuel + 1, e, depth, stks, polish, unary =>
      match genIter reg e depth stks polish unary with
      | .error err => .error err
      | .ok none =>
          if depth ≠ 0 then .error .tooMuchOpen
          else .ok (polish ++ getStk stks 0)
      | .ok (some (e', d', s', p', u')) => genLoop reg fuel e' d' s' p' u'

/-- `rpn.Generate(exp)`.  The non-string argument throw is precluded by
the Lean type; initial state is `depth = 0`, one empty operator stack,
empty `Polish`, unary-context true.  A successful parse joins the
`Polish` tokens with single spaces. -/
def Generate (reg : Registry) (exp : String) : Except GenErr String :=
  (genLoop reg (exp.length + 1) exp.toList 0 [[]] [] true).map
    (String.intercalate " ")

/-! ## The postfix tokenizer and evaluator (`rpn`) -/

/-- A token of the postfix phase: the chunk text and the source's
`Type` tag (`"num"`, `"str"`, or the registry entry's `Type`, i.e.
`"state"`, `"op"`, `"fn"`). -/
structure RToken where
  value : String
  ty : String
deriving DecidableEq

/-- A value on the calculation stack: a number, or a non-numeric chunk
pushed through as a string (unsupported-literal passthrough). -/
inductive JVal
  | num (q : ℚ)
  | str (s : String)
deriving DecidableEq

/-- First index at which `pat` occurs inside `v` (`String.indexOf`);
like JS, the empty pattern matches at index 0. -/
def indexOfSub (pat v : List Char) : Option ℕ :=
  (List.range (v.length + 1)).find? (fun i => pat.isPrefixOf (v.drop i))

/-- Whether `pat` occurs inside `v` (`indexOf(pat) != -1`). -/
def containsSub (pat v : List Char) : Bool := (indexOfSub pat v).isSome

/-- The `!isNaN(_val)` test, i.e. whether JS `Number(_val)` is not NaN,
restricted to the chunks that can reach it: a chunk containing a
registered-operator substring is split before this test, so sign
characters and exponent markers never occur here.  Accepted forms are a
hex literal (`0x`/`0X` then hex digits) or an unsigned decimal with at
most one dot and at least one digit.  (`"Infinity"` would also pass
`!isNaN` in JS; it lies outside the exact model and no theorem uses
it.) -/
def jsStrIsNumeric (v : List Char) : Bool :=
  match v with
  | '0' :: x :: rest =>
      if x = 'x' || x = 'X' then rest ≠ [] && rest.all isHexDig
      else decNumForm ('0' :: x :: rest)
  | w => decNumForm w
where
  decNumForm (w : List Char) : Bool :=
    let ds := w.takeWhile Char.isDigit
    let r := w.dropWhile Char.isDigit
    match r with
    | [] => ds ≠ []
    | '.' :: r2 => (ds ≠ [] || r2 ≠ []) && r2.all Char.isDigit
    | _ => false

/-- The evaluator's number parse:
`value.indexOf("0x") != -1 ? parseInt(value, 16) : parseFloat(value)`.
The containment test is case-sensitive.  `parseInt(_, 16)` skips an
optional `0x`/`0X` prefix and reads the hex-digit prefix of the rest
(empty would be NaN, modelled `0`, unreachable for chunks that passed
`!isNaN`). -/
def parseNumChunk (v : List Char) : ℚ :=
  if containsSub ['0', 'x'] v then
    (hexVal ((match v with
              | '0' :: x :: r => if x = 'x' || x = 'X' then r else v
              | _ => v).takeWhile isHexDig) : ℚ)
  else parseFloatLit v

/-- JS `ToNumber` of a stack value, applied when an operator
implementation consumes its operands.  A non-numeric string is NaN in
JS, modelled `0`; and JS `+` on a string operand would concatenate
rather than add.  Neither case is reachable in any theorem below (no
built-in expression puts a string on the stack and then operates on
it). -/
def toNumber : JVal → ℚ
  | .num q => q
  | .str s =>
      match s.toList with
      | '0' :: x :: r =>
          if (x = 'x' || x = 'X') && r ≠ [] && r.all isHexDig then (hexVal r : ℚ)
          else parseFloatLit s.toList
      | w => parseFloatLit w

/-- First registry key (in `for ... in` order) occurring anywhere in
`v`, with the split position: returns (left, key, right) such that
`v = left ++ key ++ right` at the first occurrence of that key. -/
def findFirstOp (reg : Registry) (v : List Char) : Option (List Char × String × List Char) :=
  match reg.find? (fun p => containsSub p.1.toList v) with
  | none => none
  | some p =>
      match indexOfSub p.1.toList v with
      | none => none
      | some i => some (v.take i, p.1, v.drop (i + p.1.toList.length))

/-- `fnSplitOperator(_val, _stack)`: empty chunk pushes nothing; an
exact registry key pushes one operator token; otherwise the first
registry key found as a substring splits the chunk into
left/key/right, each tokenized recursively in that order; otherwise the
chunk is a number or a string literal.  The step bound only guards
against a registry with an empty key (on which the JS recursion would
not terminate); `_val.length + 1` suffices otherwise, and `none` is
unreachable in every use below. -/
def fnSplitOperator (reg : Registry) : ℕ → List Char → Option (List RToken)
  | 0, _ => none
  | fuel + 1, v =>
      if v = [] then some []
      else
        match lookupOp reg (String.mk v) with
        | some spec => some [⟨String.mk v, spec.Ty⟩]
        | none =>
            match findFirstOp reg v with
            | some (l, k, r) => do
                let a ← fnSplitOperator reg fuel l
                let b ← fnSplitOperator reg fuel k.toList
                let c ← fnSplitOperator reg fuel r
                some (a ++ b ++ c)
            | none =>
                if jsStrIsNumeric v then some [⟨String.mk v, "num"⟩]
                else some [⟨String.mk v, "str"⟩]

/-- `rpn_exp.split(/\s+|,/)`: cut at each single comma or maximal
whitespace run.  Empty chunks (adjacent delimiters) are produced just
as in JS; they tokenize to nothing.  Every step consumes the chunk plus
exactly one delimiter match, so the step bound of `splitSep` below
always suffices and the `[]` of exhaustion is unreachable. -/
def splitSepF : ℕ → List Char → List (List Char)
  | 0, _ => []
  | fuel + 1, v =>
      let chunk := v.takeWhile (fun c => !isSep c)
      let r := v.dropWhile (fun c => !isSep c)
      match r with
      | [] => [chunk]
      | c :: rest =>
          if c = ',' then chunk :: splitSepF fuel rest
          else chunk :: splitSepF fuel (rest.dropWhile isWS)

/-- `rpn_exp.split(/\s+|,/)` with a sufficient step bound. -/
def splitSep (v : List Char) : List (List Char) :=
  splitSepF (v.length + 1) v

/-- Failures of `rpn`: the `illegal arg type` throw (the guard
`!rpn_exp` also fires on the empty string), the `not exist operate`
throw, the `not enough operand` throw, and the warn-and-return-null
when the final stack does not hold exactly one value.  `noFuel` models
only the empty-registry-key divergence of the splitter, unreachable
below. -/
inductive EvalErr
  | illegalArg
  | notExistOperate (t : String)
  | notEnoughOperand
  | nonConvergence
  | noFuel
deriving DecidableEq

/-- The operand-collection loop: `Arity` times, pop the stack into the
front of `args` (`args.unshift(calc_stack.pop())`), throwing when the
stack is exhausted.  Returns (args, remaining stack). -/
def popArgs : ℕ → List JVal → List JVal → Option (List JVal × List JVal)
  | 0, stack, args => some (args, stack)
  | _ + 1, [], _ => none
  | n + 1, v :: stack, args => popArgs n stack (v :: args)

/-- One token of the evaluation loop.  Number chunks are parsed and
pushed; string chunks are pushed as-is; a `state` (bracket) token is
warned about and skipped; an `op`/`fn` token looks up its entry, pops
`Arity` operands, applies `fn` to them (coerced to numbers) and pushes
the result exactly when one is returned.  A token whose `Type` matches
no `case` falls through the `switch` unchanged (unreachable: the
splitter only emits the five tags). -/
def evalStep (reg : Registry) (t : RToken) (stack : List JVal) :
    Except EvalErr (List JVal) :=
  match t.ty with
  | "num" => .ok (.num (parseNumChunk t.value.toList) :: stack)
  | "str" => .ok (.str t.value :: stack)
  | "state" => .ok stack
  | "op" | "fn" =>
      match lookupOp reg t.value with
      | none => .error (.notExistOperate t.value)
      | some operate =>
          match popArgs operate.Arity stack [] with
          | none => .error .notEnoughOperand
          | some (args, rest) =>
              match operate.fn (args.map toNumber) with
              | some res => .ok (.num res :: rest)
              | none => .ok rest
  | _ => .ok stack

/-- The evaluation loop: tokens are shifted off the queue strictly
front to back. -/
def evalLoop (reg : Registry) : List RToken → List JVal → Except EvalErr (List JVal)
  | [], stack => .ok stack
  | t :: rest, stack =>
      match evalStep reg t stack with
      | .error e => .error e
      | .ok stack' => evalLoop reg rest stack'

/-- The completion check: with the queue empty, a single stacked value
is the result; any other stack count is the `calculate unfinished`
warn-and-return-null.  (The queue-nonempty disjunct of the source's
test is dead: the loop only stops on an empty queue.) -/
def finishCalc : List JVal → Except EvalErr JVal
  | [v] => .ok v
  | _ => .error .nonConvergence

/-- Tokenize a postfix string: split on whitespace/commas, then run
`fnSplitOperator` over each chunk in order. -/
def rpnTokens (reg : Registry) (s : String) : Option (List RToken) :=
  (splitSep s.toList).foldlM
    (fun acc chunk => do
      let ts ← fnSplitOperator reg (chunk.length + 1) chunk
      pure (acc ++ ts))
    []

/-- `rpn(rpn_exp)`: the argument guard (`!rpn_exp` rejects every falsy
argument, so the empty string throws `illegal arg type` exactly like a
non-string; other non-string arguments are precluded by the Lean
type), then tokenization, evaluation, and the completion check. -/
def rpn (reg : Registry) (rpn_exp : String) : Except EvalErr JVal :=
  if rpn_exp = "" then .error .illegalArg
  else
    match rpnTokens reg rpn_exp with
    | none => .error .noFuel
    | some toks =>
        match evalLoop reg toks [] with
        | .error e => .error e
        | .ok stack => finishCalc stack

/-- A stand-in user implementation for registration theorems (the
source's example is a degree-sine; any function value exercises the
registration path). -/
def userFn1 : List ℚ → Option ℚ := fun args => some (args.getD 0 0)

/-- A second, distinguishable stand-in implementation. -/
def userFn2 : List ℚ → Option ℚ := fun args => some (args.getD 0 0 + 1)

/-- The registry after registering a two-character token `++` that
extends the built-in `+` (which precedes it in registry order). -/
def regPP : Registry := SetOperate OperateTable "++" 2 (fun _ => some 0)

/-- The claim's push condition for a non-bracket operator: stack empty,
or strictly higher precedence than the top, or equal precedence and
right-associative. -/
def ClaimPush (reg : Registry) (op : String) (stk : List String) : Prop :=
  stk = [] ∨ ∃ top rest, stk = top :: rest ∧
    (ordOf reg top < ordOf reg op ∨
      (ordOf reg op = ordOf reg top ∧ assocOf reg op = "R"))

/-! ## Helper lemmas -/

theorem pushCondB_iff (reg : Registry) (op : String) (stk : List String) :
    pushCondB reg op stk = true ↔ ClaimPush reg op stk := by
  cases stk with
  | nil => simp [pushCondB, ClaimPush]
  | cons top rest =>
      simp only [pushCondB, ClaimPush, Bool.or_eq_true, Bool.and_eq_true,
        decide_eq_true_eq, List.cons_ne_nil, false_or]
      constructor
      · intro h
        exact ⟨top, rest, rfl, h⟩
      · rintro ⟨top', rest', he, h⟩
        obtain ⟨rfl, rfl⟩ := List.cons.inj he
        exact h

theorem popLoop_eq (reg : Registry) (o : ℕ) (stk : List String) :
    popLoop reg o stk =
      (stk.take (popCount reg o stk), stk.drop (popCount reg o stk)) := by
  induction stk with
  | nil => simp [popLoop, popCount]
  | cons a rest ih =>
      by_cases h : o ≤ ordOf reg a
      · simp [popLoop, popCount, h, ih]
      · simp [popLoop, popCount, h]

theorem popCount_emitted_ge (reg : Registry) (o : ℕ) (stk : List String) :
    ∀ j, j + 1 < popCount reg o stk → o ≤ ordOf reg (stk.getD j "") := by
  induction stk with
  | nil => intro j hj; simp [popCount] at hj
  | cons a rest ih =>
      intro j hj
      by_cases h : o ≤ ordOf reg a
      · simp only [popCount, if_pos h] at hj
        cases j with
        | zero => simpa using h
        | succ j' =>
            have := ih j' (by omega)
            simpa using this
      · simp [popCount, if_neg h] at hj

theorem popCount_eq_zero_iff (reg : Registry) (o : ℕ) (stk : List String) :
    popCount reg o stk = 0 ↔ stk = [] := by
  cases stk with
  | nil => simp [popCount]
  | cons a rest =>
      simp only [popCount]
      by_cases h : o ≤ ordOf reg a <;> simp [h]

theorem popCount_stop (reg : Registry) (o : ℕ) (stk : List String) :
    popCount reg o stk = stk.length ∨
      ordOf reg (stk.getD (popCount reg o stk - 1) "") < o := by
  induction stk with
  | nil => left; simp [popCount]
  | cons a rest ih =>
      by_cases h : o ≤ ordOf reg a
      · simp only [popCount, if_pos h]
        rcases ih with h1 | h1
        · left; simp [h1]
        · rcases Nat.eq_zero_or_pos (popCount reg o rest) with hz | hp
          · left
            have hrest : rest = [] := (popCount_eq_zero_iff reg o rest).mp hz
            subst hrest
            simp [popCount]
          · right
            have hidx : popCount reg o rest + 1 - 1 = (popCount reg o rest - 1) + 1 := by
              omega
            rw [hidx]
            simpa using h1
      · right
        simp only [popCount, if_neg h]
        simpa using Nat.lt_of_not_le h

theorem popArgs_eq (n : ℕ) :
    ∀ (stack acc : List JVal),
      popArgs n stack acc =
        if n ≤ stack.length then
          some ((stack.take n).reverse ++ acc, stack.drop n)
        else none := by
  induction n with
  | zero => intro stack acc; simp [popArgs]
  | succ m ih =>
      intro stack acc
      cases stack with
      | nil => simp [popArgs]
      | cons v stack =>
          rw [popArgs, ih]
          by_cases h : m ≤ stack.length
          · simp [h, Nat.succ_le_succ_iff]
          · simp [h, Nat.succ_le_succ_iff]

theorem lookupOp_insertOp (reg : Registry) (k : String) (s : OpSpec) :
    lookupOp (insertOp reg k s) k = some s := by
  induction reg with
  | nil => simp [insertOp, lookupOp]
  | cons p rest ih =>
      obtain ⟨k', s'⟩ := p
      by_cases h : k' = k
      · subst h; simp [insertOp, lookupOp]
      · simpa [insertOp, h, lookupOp, List.find?_cons, h] using ih

theorem insertOp_insertOp (reg : Registry) (k : String) (s s' : OpSpec) :
    insertOp (insertOp reg k s) k s' = insertOp reg k s' := by
  induction reg with
  | nil => simp [insertOp]
  | cons p rest ih =>
      obtain ⟨k'', s''⟩ := p
      by_cases h : k'' = k
      · subst h; simp [insertOp]
      · simp [insertOp, h, ih]

theorem opMatch_some (reg : Registry) (e : List Char) (k : String)
    (h : opMatch reg e = some k) :
    k.toList.isPrefixOf e = true ∧ (lookupOp reg k).isSome = true := by
  unfold opMatch at h
  obtain ⟨p, hfind, hk⟩ : ∃ p, reg.find? (fun p => p.1.toList.isPrefixOf e) = some p ∧ p.1 = k := by
    cases hf : reg.find? (fun p => p.1.toList.isPrefixOf e) with
    | none => rw [hf] at h; simp at h
    | some p =>
        rw [hf] at h
        exact ⟨p, rfl, by simpa using h⟩
  subst hk
  have hp := List.find?_some hfind
  refine ⟨by simpa using hp, ?_⟩
  have hmem := List.mem_of_find?_eq_some hfind
  unfold lookupOp
  have : (reg.find? (fun q => q.1 == p.1)).isSome = true := by
    rw [List.find?_isSome]
    exact ⟨p, hmem, by simp⟩
  simpa using this

/-! ## Claim theorems -/

/-- C1: the claim asserts that evaluating the postfix string produced
by `Generate` always agrees with a reference evaluation respecting the
documented precedence table, and in particular that `"1&2*3+4"` must
equal `1 & ((2*3)+4)`.  The code violates this: its pop loop emits a
popped operator before testing its precedence, so on `"1&2*3+4"` the
`&` (precedence 9) is drained when `+` (precedence 13) arrives,
producing `"1 2 3 * & 4 +"`, which evaluates to `4`, while the
reference value `1 & ((2*3)+4)` (computed by the registry's own `&`
implementation) is `0`. -/
theorem C1_pop_defect_value :
    Generate OperateTable "1&2*3+4" = .ok "1 2 3 * & 4 +"
    ∧ rpn OperateTable "1 2 3 * & 4 +" = .ok (.num 4)
    ∧ jsAnd 1 ((2 * 3) + 4) = 0
    ∧ (4 : ℚ) ≠ 0 :=
  ⟨rfl, rfl, rfl, by decide⟩

/-- C2 counterexample: the claim's pop rule ("pop while the popped
operator's precedence is >= the new token's") fails as stated: with
stack `["*", "&"]` (reachable from `"1&2*3"`) a new `+` pops `&` into
the output although `&` has strictly lower precedence than `+`. -/
theorem C2_pop_lower_precedence :
    genOpStep OperateTable "+" ["*", "&"] [] = (["+"], ["*", "&"])
    ∧ ordOf OperateTable "&" < ordOf OperateTable "+"
    ∧ Generate OperateTable "1&2*3+4" = .ok "1 2 3 * & 4 +" :=
  ⟨rfl, by decide, rfl⟩

/-- C2 (amended): a non-bracket operator is pushed directly iff the
stack is empty, or its precedence is strictly above the top's, or equal
with the token right-associative; otherwise operators are popped into
the output one at a time, continuing while the operator just popped has
precedence >= the new token's — so all popped operators except possibly
the last satisfy the bound, and the loop stops only after emitting the
first lower-precedence operator or emptying the stack — and then the
new token is pushed.  In particular `Generate("4**3**2")` is
`"4 3 2 ** **"` and evaluates to `262144`. -/
theorem C2_converter_step :
    (∀ (reg : Registry) (op : String) (stk out : List String),
        ClaimPush reg op stk → genOpStep reg op stk out = (op :: stk, out))
    ∧ (∀ (reg : Registry) (op : String) (stk out : List String),
        ¬ ClaimPush reg op stk →
        genOpStep reg op stk out =
          (op :: stk.drop (popCount reg (ordOf reg op) stk),
            out ++ stk.take (popCount reg (ordOf reg op) stk))
        ∧ (∀ j, j + 1 < popCount reg (ordOf reg op) stk →
            ordOf reg op ≤ ordOf reg (stk.getD j ""))
        ∧ (popCount reg (ordOf reg op) stk = stk.length ∨
            ordOf reg (stk.getD (popCount reg (ordOf reg op) stk - 1) "") <
              ordOf reg op))
    ∧ Generate OperateTable "4**3**2" = .ok "4 3 2 ** **"
    ∧ rpn OperateTable "4 3 2 ** **" = .ok (.num 262144) := by
  refine ⟨?_, ?_, rfl, rfl⟩
  · intro reg op stk out h
    unfold genOpStep
    rw [if_pos ((pushCondB_iff reg op stk).mpr h)]
  · intro reg op stk out h
    have hb : pushCondB reg op stk = false := by
      cases hpc : pushCondB reg op stk
      · rfl
      · exact absurd ((pushCondB_iff reg op stk).mp hpc) h
    exact ⟨by simp [genOpStep, hb, popLoop_eq],
      popCount_emitted_ge reg (ordOf reg op) stk,
      popCount_stop reg (ordOf reg op) stk⟩

/-- Witness for C2: the push branch at an empty stack, and the pop
branch for `+` over a stacked `*`. -/
theorem C2_converter_step_witness :
    genOpStep OperateTable "*" [] [] = (["*"], [])
    ∧ genOpStep OperateTable "+" ["*"] [] = (["+"], ["*"]) := by
  constructor
  · exact C2_converter_step.1 OperateTable "*" [] [] (Or.inl rfl)
  · have h := (C2_converter_step.2.1 OperateTable "+" ["*"] [] (by
      rintro (h | ⟨top, rest, he, h⟩)
      · simp at h
      · obtain ⟨rfl, rfl⟩ := List.cons.inj he.symm
        revert h
        decide)).1
    exact h.trans (by rfl)

/-- C3 counterexample: with the user token `++` registered (a strict
extension of the earlier-registered `+`), the operator scan on input
`"++1"` consumes `+`, not the longest registered prefix `++`. -/
theorem C3_shorter_token_matched :
    opMatch regPP (String.toList "++1") = some "+"
    ∧ (lookupOp regPP "++").isSome = true
    ∧ (String.toList "++").isPrefixOf (String.toList "++1") = true
    ∧ String.length "+" < String.length "++" :=
  ⟨rfl, rfl, rfl, by decide⟩

/-- C3 (amended): the scan consumes the first registered token in
registry-insertion order that prefixes the remaining input (always a
registered prefix of it); for the built-in table `**` is matched in
preference to `*` because `**` precedes `*` in insertion order, but the
longest-first guarantee does not extend to user-registered tokens that
extend earlier-registered ones (`++` loses to `+`). -/
theorem C3_first_match :
    (∀ (reg : Registry) (e : List Char) (k : String),
        opMatch reg e = some k →
        k.toList.isPrefixOf e = true ∧ (lookupOp reg k).isSome = true)
    ∧ (∀ rest : List Char, opMatch OperateTable ('*' :: '*' :: rest) = some "**")
    ∧ opMatch regPP (String.toList "++1") = some "+" := by
  refine ⟨opMatch_some, ?_, rfl⟩
  intro rest
  simp [opMatch, OperateTable, List.find?, List.isPrefixOf]

/-- Witness for C3 (amended): the first-match soundness applied at
`"**1"`. -/
theorem C3_first_match_witness :
    ("**".toList.isPrefixOf (String.toList "**1")) = true
    ∧ (lookupOp OperateTable "**").isSome = true :=
  C3_first_match.1 OperateTable (String.toList "**1") "**" rfl

/-- C4: with the unary-context flag set, a matched raw `+`/`-` is
rewritten to the internal `#`/`_` before being emitted, and the flag is
set true again afterwards; consequently
`Generate("~-5*4**(0x0f-12)**2")` is `"5 _ ~ 4 15 12 - 2 ** ** *"` and
evaluating that postfix yields `1048576`. -/
theorem C4_unary_rewrite :
    (∀ (reg : Registry) (e : List Char) (depth : ℕ)
        (stks : List (List String)) (polish : List String) (k : String),
        e.dropWhile isSep = e → e ≠ [] →
        matchNumber e = none → opMatch reg e = some k →
        (k = "+" ∨ k = "-") →
        genIter reg e depth stks polish true =
          .ok (some (e.drop k.length, depth,
            setStk stks depth
              (genOpStep reg (if k = "+" then "#" else "_")
                (getStk stks depth) polish).1,
            (genOpStep reg (if k = "+" then "#" else "_")
              (getStk stks depth) polish).2,
            true)))
    ∧ Generate OperateTable "~-5*4**(0x0f-12)**2" =
        .ok "5 _ ~ 4 15 12 - 2 ** ** *"
    ∧ rpn OperateTable "5 _ ~ 4 15 12 - 2 ** ** *" = .ok (.num 1048576) := by
  refine ⟨?_, rfl, rfl⟩
  intro reg e depth stks polish k h1 h2 h3 h4 h5
  rcases h5 with rfl | rfl <;>
    simp [genIter, h1, h2, h3, h4, resolveUnary]

/-- Witness for C4: the rewrite step applied to input `"-5"` in unary
context. -/
theorem C4_unary_rewrite_witness :
    genIter OperateTable ['-', '5'] 0 [[]] [] true =
      .ok (some (['5'], 0, [["_"]], [], true)) := by
  have h := C4_unary_rewrite.1 OperateTable ['-', '5'] 0 [[]] [] "-"
    rfl (by decide) rfl rfl (Or.inr rfl)
  exact h.trans (by rfl)

/-- C5: an operator/function token of arity n pops exactly n values
(failing with the operand-underflow error when fewer are stacked,
as for `"2 +"`), passes them to the implementation preserving original
left-to-right operand order (for arity 2 the operand pushed earlier is
the left-hand argument, so `"5 3 -"` yields `2`), pushes the result iff
one is returned, and otherwise leaves the remaining stack unchanged. -/
theorem C5_operator_application :
    (∀ (reg : Registry) (t : RToken) (stack : List JVal) (spec : OpSpec),
        (t.ty = "op" ∨ t.ty = "fn") → lookupOp reg t.value = some spec →
        (stack.length < spec.Arity →
            evalStep reg t stack = .error .notEnoughOperand)
        ∧ (spec.Arity ≤ stack.length →
            evalStep reg t stack =
              .ok (match spec.fn (((stack.take spec.Arity).reverse).map toNumber) with
                   | some res => .num res :: stack.drop spec.Arity
                   | none => stack.drop spec.Arity)))
    ∧ (∀ (reg : Registry) (t : RToken) (a b : JVal) (rest : List JVal)
          (spec : OpSpec),
        (t.ty = "op" ∨ t.ty = "fn") → lookupOp reg t.value = some spec →
        spec.Arity = 2 →
        evalStep reg t (b :: a :: rest) =
          .ok (match spec.fn [toNumber a, toNumber b] with
               | some res => .num res :: rest
               | none => rest))
    ∧ rpn OperateTable "2 +" = .error .notEnoughOperand
    ∧ rpn OperateTable "5 3 -" = .ok (.num 2) := by
  have main : ∀ (reg : Registry) (t : RToken) (stack : List JVal) (spec : OpSpec),
      (t.ty = "op" ∨ t.ty = "fn") → lookupOp reg t.value = some spec →
      (stack.length < spec.Arity →
          evalStep reg t stack = .error .notEnoughOperand)
      ∧ (spec.Arity ≤ stack.length →
          evalStep reg t stack =
            .ok (match spec.fn (((stack.take spec.Arity).reverse).map toNumber) with
                 | some res => .num res :: stack.drop spec.Arity
                 | none => stack.drop spec.Arity)) := by
    intro reg t stack spec hty hlook
    obtain ⟨tv, ty⟩ := t
    have hstep : evalStep reg ⟨tv, ty⟩ stack =
        match popArgs spec.Arity stack [] with
        | none => .error .notEnoughOperand
        | some (args, rest) =>
            match spec.fn (args.map toNumber) with
            | some res => .ok (.num res :: rest)
            | none => .ok rest := by
      rcases hty with h | h <;> (simp at h; subst h; simp [evalStep, hlook])
    constructor
    · intro hlt
      rw [hstep, popArgs_eq]
      rw [if_neg (by omega)]
    · intro hge
      rw [hstep, popArgs_eq, if_pos hge]
      simp only [List.append_nil]
      cases spec.fn (List.map toNumber (stack.take spec.Arity).reverse) <;> rfl
  refine ⟨main, ?_, rfl, rfl⟩
  intro reg t a b rest spec hty hlook harity
  have h := (main reg t (b :: a :: rest) spec hty hlook).2 (by simp [harity])
  rw [h]
  simp [harity]

/-- Witness for C5: `-` applied to the stack left by `5 3`, via the
general step theorem. -/
theorem C5_operator_application_witness :
    evalStep OperateTable ⟨"-", "op"⟩ [.num 3, .num 5] = .ok [.num 2] := by
  have h := C5_operator_application.2.1 OperateTable ⟨"-", "op"⟩
    (.num 5) (.num 3) [] _ (Or.inl rfl) rfl rfl
  exact h.trans (by rfl)

/-- C6: after the token queue is consumed, a value is returned iff the
stack holds exactly one value; any other count is the non-convergence
failure (as for `"2 3"`), and no result value is surfaced. -/
theorem C6_completion :
    (∀ (stack : List JVal) (v : JVal), finishCalc stack = .ok v ↔ stack = [v])
    ∧ (∀ stack : List JVal, (∃ v, finishCalc stack = .ok v) ↔ stack.length = 1)
    ∧ (∀ stack : List JVal, stack.length ≠ 1 →
        finishCalc stack = .error .nonConvergence)
    ∧ rpn OperateTable "2 3" = .error .nonConvergence := by
  refine ⟨?_, ?_, ?_, rfl⟩
  · intro stack v
    match stack with
    | [] => simp [finishCalc]
    | [w] => simp [finishCalc]
    | a :: b :: rest => simp [finishCalc]
  · intro stack
    match stack with
    | [] => simp [finishCalc]
    | [w] => simp [finishCalc]
    | a :: b :: rest => simp [finishCalc]
  · intro stack h
    match stack with
    | [] => rfl
    | [w] => simp at h
    | a :: b :: rest => rfl

/-- Witness for C6: the empty stack (zero leftover values) is a
non-convergence failure, via the completion theorem. -/
theorem C6_completion_witness :
    finishCalc [] = .error .nonConvergence :=
  C6_completion.2.2.1 [] (by decide)

/-- C7: `Generate` fails with an unmatched-bracket error both when a
close bracket appears with no matching open (detected the moment depth
would go negative, as for `"2+)3"`) and when input ends with an
unclosed open bracket (detected after input exhaustion while depth is
nonzero, as for `"2+(3"`); in both cases no postfix string derived from
the partial parse is returned. -/
theorem C7_unmatched_bracket :
    (∀ (reg : Registry) (e : List Char) (stks : List (List String))
        (polish : List String) (unary : Bool),
        e.dropWhile isSep = e → e ≠ [] → matchNumber e = none →
        opMatch reg e = some ")" →
        genIter reg e 0 stks polish unary = .error .tooMuchClose)
    ∧ (∀ (reg : Registry) (fuel depth : ℕ) (stks : List (List String))
        (polish : List String) (unary : Bool), depth ≠ 0 →
        genLoop reg (fuel + 1) [] depth stks polish unary =
          .error .tooMuchOpen)
    ∧ Generate OperateTable "2+)3" = .error .tooMuchClose
    ∧ Generate OperateTable "2+(3" = .error .tooMuchOpen := by
  refine ⟨?_, ?_, rfl, rfl⟩
  · intro reg e stks polish unary h1 h2 h3 h4
    simp [genIter, h1, h2, h3, h4]
  · intro reg fuel depth stks polish unary h
    simp [genLoop, genIter, h]

/-- Witness for C7: a lone close bracket at depth 0, and exhausted
input at depth 1, via the bracket-failure theorem. -/
theorem C7_unmatched_bracket_witness :
    genIter OperateTable [')'] 0 [[]] [] true = .error .tooMuchClose
    ∧ genLoop OperateTable 1 [] 1 [[]] [] true = .error .tooMuchOpen :=
  ⟨C7_unmatched_bracket.1 OperateTable [')'] [[]] [] true rfl (by decide) rfl rfl,
   C7_unmatched_bracket.2.1 OperateTable 0 1 [[]] [] true (by decide)⟩

/-- C8 counterexample: the number regex matches `"0X0F"` in full
(case-insensitively), but the value is parsed by `parseFloat`, not with
radix 16, because the `indexOf("0x")` prefix test is case-sensitive:
`Generate("0X0F")` renders `"0"`, though the base-16 value of the
matched literal is 15. -/
theorem C8_uppercase_hex_defect :
    matchNumber (String.toList "0X0F") = some (String.toList "0X0F", [])
    ∧ numValue (String.toList "0X0F") = 0
    ∧ (hexVal (String.toList "0F") : ℚ) = 15
    ∧ Generate OperateTable "0X0F" = .ok "0" :=
  ⟨rfl, rfl, rfl, rfl⟩

/-- C8 (amended): hex literals are matched case-insensitively, but
parsed with radix 16 only when the literal begins with lowercase `0x`
(so `Generate` renders `0x0f` as `15` while `0X0F` parses as the
decimal prefix `0`); in the postfix phase a number chunk containing the
exact substring `0x` is parsed with radix 16 and any other number chunk
as decimal/float (so `0x1f` gives 31, `0X1F` gives 0, `2.5` gives
5/2). -/
theorem C8_hex_parsing :
    Generate OperateTable "0x0f" = .ok "15"
    ∧ Generate OperateTable "0X0F" = .ok "0"
    ∧ rpn OperateTable "0x1f" = .ok (.num 31)
    ∧ rpn OperateTable "0X1F" = .ok (.num 0)
    ∧ rpn OperateTable "2.5" = .ok (.num (5 / 2)) :=
  ⟨rfl, rfl, rfl, rfl, rfl⟩

/-- C9: registering a valid (nonempty) token installs an entry with
precedence 18, the given arity, left associativity and the
function kind tag; re-registering the same token replaces the prior
entry, so subsequent lookups (hence all subsequent `Generate`/
`Calculate` calls, which consult the registry only through lookups)
see only the latest implementation; and the result of a registration
is the registry that subsequent calls use, so registrations chain. -/
theorem C9_register :
    ∀ (reg : Registry) (n : String) (a a' : ℕ) (f f' : List ℚ → Option ℚ),
      n ≠ "" →
      lookupOp (SetOperate reg n a f) n = some ⟨18, "fn", a, "L", f⟩
      ∧ SetOperate (SetOperate reg n a f) n a' f' = SetOperate reg n a' f'
      ∧ lookupOp (SetOperate (SetOperate reg n a f) n a' f') n =
          some ⟨18, "fn", a', "L", f'⟩ := by
  intro reg n a a' f f' hn
  refine ⟨?_, ?_, ?_⟩
  · simp [SetOperate, hn, lookupOp_insertOp]
  · simp [SetOperate, hn, insertOp_insertOp]
  · simp [SetOperate, hn, insertOp_insertOp, lookupOp_insertOp]

/-- Witness for C9: registering `sin` and re-registering it, via the
registration theorem. -/
theorem C9_register_witness :
    lookupOp (SetOperate OperateTable "sin" 1 userFn1) "sin" =
      some ⟨18, "fn", 1, "L", userFn1⟩
    ∧ SetOperate (SetOperate OperateTable "sin" 1 userFn1) "sin" 1 userFn2 =
        SetOperate OperateTable "sin" 1 userFn2
    ∧ lookupOp (SetOperate (SetOperate OperateTable "sin" 1 userFn1) "sin" 1 userFn2) "sin" =
        some ⟨18, "fn", 1, "L", userFn2⟩ :=
  C9_register OperateTable "sin" 1 1 userFn1 userFn2 (by decide)

/-- C10: the evaluator rejects the empty string through the same falsy
argument guard used for non-string inputs, before any tokenization: the
result is the argument-type error for every registry state, not a value
and not the non-convergence error. -/
theorem C10_empty_string_guard :
    (∀ reg : Registry, rpn reg "" = .error .illegalArg)
    ∧ EvalErr.illegalArg ≠ EvalErr.nonConvergence :=
  ⟨fun _ => rfl, by decide⟩

end RPNJS
